import Mathlib

/-!
Verification of the Grafana ngalert state manager (pkg/services/ngalert/state).

The Go source of the manager (Warm, ProcessEvalResults, setNextState,
staleResultsHandler, isItStale, translateInstanceState, ResetStateByRuleUID,
saveState) is embedded below as pure Lean functions.  Collaborator code that
is not part of the shown source (the cache type, the State transition helper
methods, the image service, the label hashing) is modelled from the
specification; those definitions carry a doc comment starting with
"Modelled from the spec:".  Side effects (durable saves and deletes, image
requests, asynchronous annotation dispatches) are made explicit: fallible
collaborators are oracles passed as arguments and every emitted effect is
recorded in the function's output, so that theorems can speak about how many
effects were produced and show that effect failures do not alter in-memory
results.
-/

set_option maxHeartbeats 1000000
set_option linter.dupNamespace false
set_option linter.unnecessarySeqFocus false

namespace AlertState

/-- Time instants and durations are nanosecond counts, as in Go's time package. -/
abbrev Time := Int

/-- Number of nanoseconds in one second (Go time.Second). -/
def secondNs : Int := 1000000000

/-- Runtime evaluation state enum (eval.State). -/
inductive EvalState where
  | Normal
  | Alerting
  | Pending
  | NoData
  | Error
  deriving DecidableEq

/-- Modelled from the spec: the printed name of each runtime state
(eval.State.String), used as a state reason. -/
def EvalState.string : EvalState → String
  | .Normal => "Normal"
  | .Alerting => "Alerting"
  | .Pending => "Pending"
  | .NoData => "NoData"
  | .Error => "Error"

/-- Stored instance state enum (ngModels.InstanceStateType). -/
inductive InstanceStateType where
  | Firing
  | Normal
  | Pending
  | NoData
  | Error
  deriving DecidableEq

/-- Label sets are association lists from label name to label value. -/
abbrev Labels := List (String × String)

/-- Modelled from the spec: de-duplication of a label list, first occurrence wins. -/
def dedupeLabels : Labels → Labels
  | [] => []
  | p :: rest => p :: (dedupeLabels rest).filter (fun q => !(q.1 == p.1))

/-- Modelled from the spec: insertion into a key-sorted label list. -/
def insertLabel (p : String × String) : Labels → Labels
  | [] => [p]
  | q :: rest => if p.1 < q.1 then p :: q :: rest else q :: insertLabel p rest

/-- Modelled from the spec: key-sort of a label list. -/
def sortLabels : Labels → Labels
  | [] => []
  | p :: rest => insertLabel p (sortLabels rest)

/-- Modelled from the spec: the stable, order-independent string key of a label
set (InstanceLabels.StringKey / StringAndHash), used both as the CacheID and as
the durable labels hash. -/
def stringKey (l : Labels) : String :=
  (sortLabels (dedupeLabels l)).foldl (fun acc p => acc ++ p.1 ++ "=" ++ p.2 ++ ";") ""

/-- Diagnostic image reference (ngModels.Image), identified by a token. -/
structure Image where
  token : Nat
  deriving DecidableEq

/-- One evaluation record kept in a State's bounded history. -/
structure Evaluation where
  EvaluationTime : Time
  EvaluationState : EvalState
  Condition : String
  deriving DecidableEq

/-- The part of an alert rule (ngModels.AlertRule) that the state manager reads. -/
structure AlertRule where
  ID : Int
  OrgID : Int
  UID : String
  Title : String
  Condition : String
  IntervalSeconds : Int
  Labels : Labels
  RuleAnnotations : List (String × String)
  ResultsRetention : Nat
  deriving DecidableEq

/-- One evaluation result (eval.Result). -/
structure Result where
  Instance : Labels
  State : EvalState
  EvaluatedAt : Time
  EvaluationDuration : Int
  EvaluationString : String
  deriving DecidableEq

/-- One alerting instance's current state (state.State). -/
structure State where
  OrgID : Int
  AlertRuleUID : String
  CacheID : String
  Labels : Labels
  State : EvalState
  StateReason : String
  Results : List Evaluation
  StartsAt : Time
  EndsAt : Time
  LastEvaluationString : String
  LastEvaluationTime : Time
  EvaluationDuration : Int
  RuleAnnotations : List (String × String)
  Resolved : Bool
  Image : Option Image
  deriving DecidableEq

/-- ResendDelay in seconds (src: `var ResendDelay = 30 * time.Second`). -/
def ResendDelay : Int := 30

/-- Modelled from the spec: the state reason attached to force-resolved stale
instances (ngModels.StateReasonMissingSeries), "missing series". -/
def StateReasonMissingSeries : String := "missing series"

/-- Modelled from the spec: State.Resolve forces an instance to Normal with the
given reason, marks it Resolved and closes its validity interval. -/
def Resolve (s : State) (reason : String) (endsAt : Time) : State :=
  { s with State := EvalState.Normal, StateReason := reason,
           EndsAt := endsAt, Resolved := true }

/-- Modelled from the spec: State.TrimResults trims the bounded evaluation
history to the rule-configured retention count. -/
def TrimResults (s : State) (rule : AlertRule) : State :=
  if s.Results.length > rule.ResultsRetention then
    { s with Results := s.Results.drop (s.Results.length - rule.ResultsRetention) }
  else s

/-- Modelled from the spec: resultNormal; entering a new state sets StartsAt,
remaining in the same state extends EndsAt. -/
def resultNormal (_rule : AlertRule) (result : Result) (s : State) : State :=
  if s.State == EvalState.Normal then { s with EndsAt := result.EvaluatedAt }
  else { s with State := EvalState.Normal,
                StartsAt := result.EvaluatedAt, EndsAt := result.EvaluatedAt }

/-- Modelled from the spec: resultAlerting; EndsAt for Alerting is pushed
forward by the resend-delay cushion. -/
def resultAlerting (_rule : AlertRule) (result : Result) (s : State) : State :=
  if s.State == EvalState.Alerting then
    { s with EndsAt := result.EvaluatedAt + ResendDelay * secondNs }
  else
    { s with State := EvalState.Alerting, StartsAt := result.EvaluatedAt,
             EndsAt := result.EvaluatedAt + ResendDelay * secondNs }

/-- Modelled from the spec: resultError; entering a new state sets StartsAt,
remaining in the same state extends EndsAt. -/
def resultError (_rule : AlertRule) (result : Result) (s : State) : State :=
  if s.State == EvalState.Error then { s with EndsAt := result.EvaluatedAt }
  else { s with State := EvalState.Error,
                StartsAt := result.EvaluatedAt, EndsAt := result.EvaluatedAt }

/-- Modelled from the spec: resultNoData; entering a new state sets StartsAt,
remaining in the same state extends EndsAt. -/
def resultNoData (_rule : AlertRule) (result : Result) (s : State) : State :=
  if s.State == EvalState.NoData then { s with EndsAt := result.EvaluatedAt }
  else { s with State := EvalState.NoData,
                StartsAt := result.EvaluatedAt, EndsAt := result.EvaluatedAt }

/-- Modelled from the spec: shouldTakeImage judges that a new screenshot is
warranted when the state changed or the instance resolved. -/
def shouldTakeImage (state oldState : EvalState) (_image : Option Image)
    (resolved : Bool) : Bool :=
  resolved || !(state == oldState)

/-- Bookkeeping step of setNextState (src lines 233-242): record the last
evaluation, append it to the bounded history and trim the history. -/
def addEvaluation (rule : AlertRule) (result : Result) (s : State) : State :=
  TrimResults
    { s with LastEvaluationTime := result.EvaluatedAt,
             EvaluationDuration := result.EvaluationDuration,
             Results := s.Results ++
               [{ EvaluationTime := result.EvaluatedAt,
                  EvaluationState := result.State,
                  Condition := rule.Condition }],
             LastEvaluationString := result.EvaluationString }
    rule

/-- Output of the pure transition core of setNextState: the updated state,
whether an image was requested from the image service, and whether an
annotation write was dispatched. -/
structure TransOut where
  state : State
  imgRequested : Bool
  annotated : Bool
  deriving DecidableEq

/-- Pure core of Manager.setNextState (src lines 230-291), acting on the state
obtained from the cache.  `img` is what takeImage would return if invoked
(none models an error or a nil image). -/
def transition (rule : AlertRule) (result : Result) (img : Option Image)
    (cur : State) : TransOut :=
  let s1 := addEvaluation rule result cur
  let oldState := s1.State
  let oldReason := s1.StateReason
  let s2 :=
    match result.State with
    | EvalState.Normal => resultNormal rule result s1
    | EvalState.Alerting => resultAlerting rule result s1
    | EvalState.Error => resultError rule result s1
    | EvalState.NoData => resultNoData rule result s1
    | EvalState.Pending => s1
  let s3 := { s2 with StateReason :=
    if !(s2.State == result.State) && !(result.State == EvalState.Normal)
        && !(result.State == EvalState.Alerting)
    then result.State.string else "" }
  let s4 := { s3 with Resolved :=
    (oldState == EvalState.Alerting) && (s3.State == EvalState.Normal) }
  let wantImg := shouldTakeImage s4.State oldState s4.Image s4.Resolved
  let s5 := if wantImg then
      (match img with
        | some i => { s4 with Image := some i }
        | none => s4)
    else s4
  { state := s5,
    imgRequested := wantImg,
    annotated := !(oldState == s5.State) || !(oldReason == s5.StateReason) }

/-- Key equality of a cache entry against an (org, rule UID, cache id) triple. -/
def sameKey (s : State) (org : Int) (uid cid : String) : Bool :=
  s.OrgID == org && s.AlertRuleUID == uid && s.CacheID == cid

/-- Modelled from the spec: cache lookup (cache.get); the cache is a keyed
store from (OrgID, AlertRuleUID, CacheID) to State. -/
def cacheGet (c : List State) (org : Int) (uid cid : String) : Option State :=
  c.find? (fun s => sameKey s org uid cid)

/-- Modelled from the spec: cache.deleteEntry deletes one instance. -/
def deleteEntry (c : List State) (org : Int) (uid cid : String) : List State :=
  c.filter (fun s => !(sameKey s org uid cid))

/-- Modelled from the spec: cache.set stores a state under its own key,
replacing any previous entry with the same key. -/
def cacheSet (c : List State) (s : State) : List State :=
  deleteEntry c s.OrgID s.AlertRuleUID s.CacheID ++ [s]

/-- Modelled from the spec: cache.getStatesForRuleUID snapshots all states of
one rule. -/
def getStatesForRuleUID (c : List State) (org : Int) (uid : String) : List State :=
  c.filter (fun s => s.OrgID == org && s.AlertRuleUID == uid)

/-- Modelled from the spec: cache.removeByRuleUID deletes and returns all
states of one rule: (removed, remaining). -/
def removeByRuleUID (c : List State) (org : Int) (uid : String) :
    List State × List State :=
  (c.filter (fun s => s.OrgID == org && s.AlertRuleUID == uid),
   c.filter (fun s => !(s.OrgID == org && s.AlertRuleUID == uid)))

/-- Modelled from the spec: the merged label set of a result; extra labels
override rule labels which override result labels. -/
def mergedLabels (rule : AlertRule) (result : Result) (extra : Labels) : Labels :=
  dedupeLabels (extra ++ rule.Labels ++ result.Instance)

/-- Modelled from the spec: cache.getOrCreate returns the existing state for
the merged label set or creates a new Normal-state one with
StartsAt = EndsAt = now. -/
def getOrCreate (rule : AlertRule) (result : Result) (extra : Labels)
    (c : List State) : State :=
  let lbs := mergedLabels rule result extra
  let cid := stringKey lbs
  match cacheGet c rule.OrgID rule.UID cid with
  | some s => s
  | none =>
    { OrgID := rule.OrgID, AlertRuleUID := rule.UID, CacheID := cid,
      Labels := lbs, State := EvalState.Normal, StateReason := "",
      Results := [], StartsAt := result.EvaluatedAt, EndsAt := result.EvaluatedAt,
      LastEvaluationString := "", LastEvaluationTime := 0,
      EvaluationDuration := 0, RuleAnnotations := rule.RuleAnnotations,
      Resolved := false, Image := none }

/-- Output of Manager.setNextState: the updated state, the updated cache, and
the side effects (image request, asynchronous annotation dispatch). -/
structure NextOut where
  state : State
  cache : List State
  imgRequested : Bool
  annotated : Bool
  deriving DecidableEq

/-- Manager.setNextState (src lines 230-291): obtain-or-create the instance,
run the pure transition, store the result back into the cache. -/
def setNextState (rule : AlertRule) (result : Result) (extra : Labels)
    (img : Option Image) (c : List State) : NextOut :=
  let cur := getOrCreate rule result extra c
  let out := transition rule result img cur
  { state := out.state, cache := cacheSet c out.state,
    imgRequested := out.imgRequested, annotated := out.annotated }

/-- Manager.isItStale (src lines 469-471): the instance is stale when its last
evaluation time plus twice the rule interval is not after the sweep time. -/
def isItStale (evaluatedAt : Time) (lastEval : Time) (intervalSeconds : Int) : Bool :=
  !(decide (lastEval + 2 * intervalSeconds * secondNs > evaluatedAt))

/-- The condition of src line 428: the instance is absent from the processed
batch and stale. -/
def staleCond (processed : List String) (evaluatedAt : Time)
    (intervalSeconds : Int) (s : State) : Bool :=
  !(processed.contains s.CacheID) &&
    isItStale evaluatedAt s.LastEvaluationTime intervalSeconds

/-- Accumulator of the staleness sweep: the cache, the lazily captured shared
resolution image, the resolved set, and the recorded side effects (states
removed from the cache, durable delete attempts, annotation dispatches, image
service requests). -/
structure SweepAcc where
  cache : List State
  resolvedImage : Option Image
  resolved : List State
  deleted : List State
  deleteCmds : List (Int × String × String)
  anns : Nat
  imgCalls : Nat
  deriving DecidableEq

/-- One iteration of the staleness sweep loop (src lines 426-465).  `oracle n`
is what the n-th takeImage request of this sweep would return. -/
def staleStep (r : AlertRule) (processed : List String) (evaluatedAt : Time)
    (oracle : Nat → Option Image) (s : State) (acc : SweepAcc) : SweepAcc :=
  if staleCond processed evaluatedAt r.IntervalSeconds s then
    if s.State == EvalState.Alerting then
      let s1 := Resolve s StateReasonMissingSeries evaluatedAt
      match acc.resolvedImage with
      | some img =>
        { cache := deleteEntry acc.cache s.OrgID s.AlertRuleUID s.CacheID,
          resolvedImage := some img,
          resolved := acc.resolved ++ [{ s1 with Image := some img }],
          deleted := acc.deleted ++ [s],
          deleteCmds := acc.deleteCmds ++ [(s.OrgID, s.AlertRuleUID, stringKey s.Labels)],
          anns := acc.anns + 1,
          imgCalls := acc.imgCalls }
      | none =>
        let img := oracle acc.imgCalls
        { cache := deleteEntry acc.cache s.OrgID s.AlertRuleUID s.CacheID,
          resolvedImage := img,
          resolved := acc.resolved ++ [{ s1 with Image := img }],
          deleted := acc.deleted ++ [s],
          deleteCmds := acc.deleteCmds ++ [(s.OrgID, s.AlertRuleUID, stringKey s.Labels)],
          anns := acc.anns + 1,
          imgCalls := acc.imgCalls + 1 }
    else
      { acc with cache := deleteEntry acc.cache s.OrgID s.AlertRuleUID s.CacheID,
                 deleted := acc.deleted ++ [s],
                 deleteCmds := acc.deleteCmds ++ [(s.OrgID, s.AlertRuleUID, stringKey s.Labels)] }
  else acc

/-- The staleness sweep loop over the snapshot of known states. -/
def sweepLoop (r : AlertRule) (processed : List String) (evaluatedAt : Time)
    (oracle : Nat → Option Image) : List State → SweepAcc → SweepAcc
  | [], acc => acc
  | s :: rest, acc =>
    sweepLoop r processed evaluatedAt oracle rest
      (staleStep r processed evaluatedAt oracle s acc)

/-- Manager.staleResultsHandler (src lines 411-467): sweep the cached states
of the rule, evict the stale ones absent from the processed batch, and
force-resolve the Alerting ones. -/
def staleResultsHandler (r : AlertRule) (processed : List String)
    (evaluatedAt : Time) (oracle : Nat → Option Image) (c : List State) : SweepAcc :=
  sweepLoop r processed evaluatedAt oracle
    (getStatesForRuleUID c r.OrgID r.UID)
    { cache := c, resolvedImage := none, resolved := [], deleted := [],
      deleteCmds := [], anns := 0, imgCalls := 0 }

/-- Accumulator of the per-result loop of ProcessEvalResults. -/
structure EvalAcc where
  cache : List State
  states : List State
  processed : List String
  anns : Nat
  imgCalls : Nat
  deriving DecidableEq

/-- One iteration of the per-result loop of ProcessEvalResults
(src lines 212-216). -/
def processStep (rule : AlertRule) (extra : Labels) (oracle : Nat → Option Image)
    (acc : EvalAcc) (result : Result) : EvalAcc :=
  let out := setNextState rule result extra (oracle acc.imgCalls) acc.cache
  { cache := out.cache,
    states := acc.states ++ [out.state],
    processed := acc.processed ++ [out.state.CacheID],
    anns := acc.anns + (if out.annotated then 1 else 0),
    imgCalls := acc.imgCalls + (if out.imgRequested then 1 else 0) }

/-- Output of ProcessEvalResults: the per-result updated states, the sweep's
resolved states, the returned list, the cache, and the recorded side effects.
`saves` records one durable save attempt per updated state together with the
save oracle's verdict. -/
structure ProcessOut where
  updated : List State
  resolved : List State
  returned : List State
  cache : List State
  annCount : Nat
  imgCalls : Nat
  deleteCmds : List (Int × String × String)
  saves : List (String × Bool)
  deriving DecidableEq

/-- Manager.ProcessEvalResults (src lines 207-227): update one state per
result, run the staleness sweep, attempt the durable saves (failures only
logged), and return the updated states followed by the stale-resolved ones. -/
def ProcessEvalResults (evaluatedAt : Time) (rule : AlertRule)
    (results : List Result) (extra : Labels) (oracle : Nat → Option Image)
    (saveOracle : State → Bool) (c : List State) : ProcessOut :=
  let acc := results.foldl (processStep rule extra oracle)
    { cache := c, states := [], processed := [], anns := 0, imgCalls := 0 }
  let sweep := staleResultsHandler rule acc.processed evaluatedAt
    (fun n => oracle (acc.imgCalls + n)) acc.cache
  let saves := if acc.states.length > 0 then
      acc.states.map (fun s => (s.CacheID, saveOracle s))
    else []
  { updated := acc.states,
    resolved := sweep.resolved,
    returned := acc.states ++ sweep.resolved,
    cache := sweep.cache,
    annCount := acc.anns + sweep.anns,
    imgCalls := acc.imgCalls + sweep.imgCalls,
    deleteCmds := sweep.deleteCmds,
    saves := saves }

/-- Manager.translateInstanceState (src lines 340-349): translate the stored
instance state into the runtime state. -/
def translateInstanceState (state : InstanceStateType) : EvalState :=
  if state == InstanceStateType.Firing then EvalState.Alerting
  else if state == InstanceStateType.Normal then EvalState.Normal
  else EvalState.Error

/-- One persisted alert instance (ngModels.AlertInstance) as read by Warm. -/
structure AlertInstance where
  RuleUID : String
  RuleOrgID : Int
  Labels : Labels
  CurrentState : InstanceStateType
  CurrentReason : String
  CurrentStateSince : Time
  CurrentStateEnd : Time
  LastEvalTime : Time
  deriving DecidableEq

/-- The state reconstructed from one persisted instance and its rule
(src lines 151-163); fields the source does not set keep their Go zero
values. -/
def stateForEntry (rule : AlertRule) (entry : AlertInstance) : State :=
  { OrgID := entry.RuleOrgID, AlertRuleUID := entry.RuleUID,
    CacheID := stringKey entry.Labels, Labels := entry.Labels,
    State := translateInstanceState entry.CurrentState,
    StateReason := entry.CurrentReason,
    Results := [],
    StartsAt := entry.CurrentStateSince, EndsAt := entry.CurrentStateEnd,
    LastEvaluationString := "",
    LastEvaluationTime := entry.LastEvalTime,
    EvaluationDuration := 0,
    RuleAnnotations := rule.RuleAnnotations,
    Resolved := false, Image := none }

/-- The states reconstructed for one org during Warm (src lines 139-165): an
instance whose rule is not found is skipped. -/
def warmStatesForOrg (rules : List AlertRule) (entries : List AlertInstance) :
    List State :=
  entries.filterMap (fun e =>
    match rules.find? (fun r => r.UID == e.RuleUID) with
    | none => none
    | some r => some (stateForEntry r e))

/-- Manager.Warm (src lines 107-171): reset the cache, reconstruct one state
per persisted instance whose rule exists, and seed the cache with them. -/
def Warm (orgIds : List Int) (rules : Int → List AlertRule)
    (instances : Int → List AlertInstance) : List State :=
  let states := (orgIds.map (fun o => warmStatesForOrg (rules o) (instances o))).flatten
  states.foldl cacheSet []

/-- Output of ResetStateByRuleUID: the removed states, the remaining cache,
and whether a durable delete was attempted and what the delete oracle
answered. -/
structure ResetOut where
  states : List State
  cache : List State
  deleteAttempted : Bool
  deleteOk : Bool
  deriving DecidableEq

/-- Manager.ResetStateByRuleUID (src lines 191-203): evict all states of the
rule, attempt a durable delete when anything was evicted (failure only
logged), and return the evicted states. -/
def ResetStateByRuleUID (org : Int) (uid : String) (deleteOracle : Bool)
    (c : List State) : ResetOut :=
  let removed := (removeByRuleUID c org uid).1
  let remaining := (removeByRuleUID c org uid).2
  let attempted := removed.length > 0
  { states := removed, cache := remaining,
    deleteAttempted := attempted,
    deleteOk := if attempted then deleteOracle else true }

/-! Helper lemmas: projections of the bookkeeping step. -/

@[simp]
theorem TrimResults_State (s : State) (rule : AlertRule) :
    (TrimResults s rule).State = s.State := by
  unfold TrimResults; split <;> rfl

@[simp]
theorem TrimResults_StateReason (s : State) (rule : AlertRule) :
    (TrimResults s rule).StateReason = s.StateReason := by
  unfold TrimResults; split <;> rfl

@[simp]
theorem TrimResults_StartsAt (s : State) (rule : AlertRule) :
    (TrimResults s rule).StartsAt = s.StartsAt := by
  unfold TrimResults; split <;> rfl

@[simp]
theorem TrimResults_EndsAt (s : State) (rule : AlertRule) :
    (TrimResults s rule).EndsAt = s.EndsAt := by
  unfold TrimResults; split <;> rfl

@[simp]
theorem TrimResults_LastEvaluationTime (s : State) (rule : AlertRule) :
    (TrimResults s rule).LastEvaluationTime = s.LastEvaluationTime := by
  unfold TrimResults; split <;> rfl

@[simp]
theorem TrimResults_EvaluationDuration (s : State) (rule : AlertRule) :
    (TrimResults s rule).EvaluationDuration = s.EvaluationDuration := by
  unfold TrimResults; split <;> rfl

@[simp]
theorem addEvaluation_State (rule : AlertRule) (result : Result) (s : State) :
    (addEvaluation rule result s).State = s.State := by
  unfold addEvaluation; simp

@[simp]
theorem addEvaluation_StateReason (rule : AlertRule) (result : Result) (s : State) :
    (addEvaluation rule result s).StateReason = s.StateReason := by
  unfold addEvaluation; simp

@[simp]
theorem addEvaluation_StartsAt (rule : AlertRule) (result : Result) (s : State) :
    (addEvaluation rule result s).StartsAt = s.StartsAt := by
  unfold addEvaluation; simp

@[simp]
theorem addEvaluation_EndsAt (rule : AlertRule) (result : Result) (s : State) :
    (addEvaluation rule result s).EndsAt = s.EndsAt := by
  unfold addEvaluation; simp

@[simp]
theorem addEvaluation_LastEvaluationTime (rule : AlertRule) (result : Result) (s : State) :
    (addEvaluation rule result s).LastEvaluationTime = result.EvaluatedAt := by
  unfold addEvaluation; simp

@[simp]
theorem addEvaluation_EvaluationDuration (rule : AlertRule) (result : Result) (s : State) :
    (addEvaluation rule result s).EvaluationDuration = result.EvaluationDuration := by
  unfold addEvaluation; simp

/-- Claim C2: after setNextState processes any evaluation result, the
resulting state's Resolved flag is true if and only if the instance's state
before the transition was Alerting and its state after the transition is
Normal; in every other transition, including Alerting to Alerting, Resolved
is false. -/
theorem resolved_iff_alerting_to_normal (rule : AlertRule) (result : Result)
    (extra : Labels) (img : Option Image) (c : List State) :
    (setNextState rule result extra img c).state.Resolved =
      (((getOrCreate rule result extra c).State == EvalState.Alerting) &&
       ((setNextState rule result extra img c).state.State == EvalState.Normal)) := by
  cases img <;> cases hr : result.State <;>
    simp [setNextState, transition, hr, resultNormal, resultAlerting,
      resultError, resultNoData, shouldTakeImage] <;>
    try (split <;> simp_all <;> try (split <;> simp_all))

/-- Claim C3: after setNextState processes any evaluation result, the
instance's StateReason is non-empty if and only if the resulting state
differs from the raw result state and the raw result state is neither Normal
nor Alerting; when non-empty, StateReason equals the raw result state's
name. -/
theorem state_reason_law (rule : AlertRule) (result : Result) (extra : Labels)
    (img : Option Image) (c : List State) :
    (((setNextState rule result extra img c).state.StateReason != "") =
      (!((setNextState rule result extra img c).state.State == result.State) &&
       !(result.State == EvalState.Normal) &&
       !(result.State == EvalState.Alerting)))
    ∧ (((setNextState rule result extra img c).state.StateReason == "") ||
       ((setNextState rule result extra img c).state.StateReason ==
         result.State.string)) = true := by
  cases img <;> cases hr : result.State <;>
    simp [setNextState, transition, hr, resultNormal, resultAlerting,
      resultError, resultNoData, shouldTakeImage, EvalState.string] <;>
    try (split <;> simp_all <;> try (split <;> simp_all))

/-- Claim C9: when the evaluation result's state is Pending, the
state-setting switch applies no transition function: the instance's
AlertState, StartsAt and EndsAt are left unchanged by the transition step,
while the bookkeeping fields (LastEvaluationTime, EvaluationDuration, the
Results history) are still updated. -/
theorem pending_skips_transition (rule : AlertRule) (result : Result)
    (extra : Labels) (img : Option Image) (c : List State)
    (h : result.State = EvalState.Pending) :
    (setNextState rule result extra img c).state.State =
      (getOrCreate rule result extra c).State
    ∧ (setNextState rule result extra img c).state.StartsAt =
      (getOrCreate rule result extra c).StartsAt
    ∧ (setNextState rule result extra img c).state.EndsAt =
      (getOrCreate rule result extra c).EndsAt
    ∧ (setNextState rule result extra img c).state.LastEvaluationTime =
      result.EvaluatedAt
    ∧ (setNextState rule result extra img c).state.EvaluationDuration =
      result.EvaluationDuration
    ∧ (setNextState rule result extra img c).state.Results =
      (addEvaluation rule result (getOrCreate rule result extra c)).Results := by
  cases img <;> simp [setNextState, transition, h, shouldTakeImage] <;>
    try (split <;> simp_all)

/-- A rule used by the Pending witness. -/
def ruleC9 : AlertRule :=
  { ID := 9, OrgID := 1, UID := "r9", Title := "p", Condition := "D",
    IntervalSeconds := 10, Labels := [], RuleAnnotations := [],
    ResultsRetention := 10 }

/-- A Pending result used by the Pending witness. -/
def resultC9 : Result :=
  { Instance := [("y", "2")], State := EvalState.Pending, EvaluatedAt := 5,
    EvaluationDuration := 1, EvaluationString := "" }

/-- Witness for C9 at a concrete input: a Pending result for a fresh
instance. -/
theorem pending_skips_transition_witness :
    (setNextState ruleC9 resultC9 [] none []).state.State =
      (getOrCreate ruleC9 resultC9 [] []).State
    ∧ (setNextState ruleC9 resultC9 [] none []).state.StartsAt =
      (getOrCreate ruleC9 resultC9 [] []).StartsAt
    ∧ (setNextState ruleC9 resultC9 [] none []).state.EndsAt =
      (getOrCreate ruleC9 resultC9 [] []).EndsAt
    ∧ (setNextState ruleC9 resultC9 [] none []).state.LastEvaluationTime =
      resultC9.EvaluatedAt
    ∧ (setNextState ruleC9 resultC9 [] none []).state.EvaluationDuration =
      resultC9.EvaluationDuration
    ∧ (setNextState ruleC9 resultC9 [] none []).state.Results =
      (addEvaluation ruleC9 resultC9 (getOrCreate ruleC9 resultC9 [] [])).Results :=
  pending_skips_transition ruleC9 resultC9 [] none [] rfl

/-! Scenario inputs for the two-cycle annotate scenario. -/

/-- A rule evaluated every 10 seconds, used by the two-cycle scenario. -/
def ruleC6 : AlertRule :=
  { ID := 1, OrgID := 1, UID := "r1", Title := "t", Condition := "A",
    IntervalSeconds := 10, Labels := [], RuleAnnotations := [],
    ResultsRetention := 10 }

/-- A result for one fixed instance of `ruleC6`. -/
def resultC6 (st : EvalState) (t : Time) : Result :=
  { Instance := [("x", "1")], State := st, EvaluatedAt := t,
    EvaluationDuration := 0, EvaluationString := "" }

/-- First cycle of the scenario: the instance switches Normal to Alerting. -/
def cycleC6a : ProcessOut :=
  ProcessEvalResults 0 ruleC6 [resultC6 EvalState.Alerting 0] []
    (fun _ => none) (fun _ => true) []

/-- Second cycle of the scenario: the instance switches Alerting to Normal. -/
def cycleC6b : ProcessOut :=
  ProcessEvalResults (10 * secondNs) ruleC6
    [resultC6 EvalState.Normal (10 * secondNs)] []
    (fun _ => none) (fun _ => true) cycleC6a.cache

/-- Claim C6: within setNextState, an annotation write is dispatched if and
only if the instance's AlertState or its StateReason changed across the
transition; and a Normal to Alerting transition followed by Alerting to
Normal in two consecutive cycles produces exactly two annotation writes. -/
theorem annotate_iff_changed :
    (∀ (rule : AlertRule) (result : Result) (extra : Labels)
        (img : Option Image) (c : List State),
      (setNextState rule result extra img c).annotated =
        (!((getOrCreate rule result extra c).State ==
            (setNextState rule result extra img c).state.State) ||
         !((getOrCreate rule result extra c).StateReason ==
            (setNextState rule result extra img c).state.StateReason)))
    ∧ cycleC6a.annCount + cycleC6b.annCount = 2 := by
  constructor
  · intro rule result extra img c
    simp only [setNextState, transition]
    cases img <;>
      simp [addEvaluation_State, addEvaluation_StateReason]
  · decide

/-- Every component of ProcessEvalResults except the recorded save verdicts is
computed before and independently of the durable save attempts. -/
theorem ProcessEvalResults_saveOracle_eq (evaluatedAt : Time)
    (rule : AlertRule) (results : List Result) (extra : Labels)
    (oracle : Nat → Option Image) (save1 save2 : State → Bool)
    (c : List State) :
    (ProcessEvalResults evaluatedAt rule results extra oracle save1 c).returned =
      (ProcessEvalResults evaluatedAt rule results extra oracle save2 c).returned
    ∧ (ProcessEvalResults evaluatedAt rule results extra oracle save1 c).cache =
      (ProcessEvalResults evaluatedAt rule results extra oracle save2 c).cache
    ∧ (ProcessEvalResults evaluatedAt rule results extra oracle save1 c).updated =
      (ProcessEvalResults evaluatedAt rule results extra oracle save2 c).updated
    ∧ (ProcessEvalResults evaluatedAt rule results extra oracle save1 c).resolved =
      (ProcessEvalResults evaluatedAt rule results extra oracle save2 c).resolved :=
  ⟨rfl, rfl, rfl, rfl⟩

/-- The per-result loop emits exactly one updated state per result. -/
theorem processLoop_states_length (rule : AlertRule) (extra : Labels)
    (oracle : Nat → Option Image) (results : List Result) (acc : EvalAcc) :
    (results.foldl (processStep rule extra oracle) acc).states.length =
      acc.states.length + results.length := by
  induction results generalizing acc with
  | nil => simp
  | cons r rest ih =>
    simp only [List.foldl_cons, ih, processStep]
    simp +arith

/-- Claim C5: the list returned by ProcessEvalResults is the per-result
updated states followed by the stale-resolved states, one updated state per
result; and the outcome of the durable saves changes neither the returned
states nor the cache. -/
theorem process_results_shape_and_save_independence (evaluatedAt : Time)
    (rule : AlertRule) (results : List Result) (extra : Labels)
    (oracle : Nat → Option Image) (save1 save2 : State → Bool)
    (c : List State) :
    (ProcessEvalResults evaluatedAt rule results extra oracle save1 c).returned =
      (ProcessEvalResults evaluatedAt rule results extra oracle save1 c).updated ++
      (ProcessEvalResults evaluatedAt rule results extra oracle save1 c).resolved
    ∧ (ProcessEvalResults evaluatedAt rule results extra oracle save1 c).updated.length =
      results.length
    ∧ (ProcessEvalResults evaluatedAt rule results extra oracle save1 c).returned =
      (ProcessEvalResults evaluatedAt rule results extra oracle save2 c).returned
    ∧ (ProcessEvalResults evaluatedAt rule results extra oracle save1 c).cache =
      (ProcessEvalResults evaluatedAt rule results extra oracle save2 c).cache := by
  refine ⟨rfl, ?_, rfl, rfl⟩
  show (results.foldl (processStep rule extra oracle)
    { cache := c, states := [], processed := [], anns := 0, imgCalls := 0 }).states.length =
      results.length
  simp [processLoop_states_length]

/-- Claim C8: ResetStateByRuleUID removes every cached state of the given rule
and returns exactly the removed states; the outcome of the durable delete
changes neither the in-memory eviction nor the returned list. -/
theorem reset_rule_evicts_and_returns (org : Int) (uid : String)
    (del1 del2 : Bool) (c : List State) :
    (ResetStateByRuleUID org uid del1 c).states =
      c.filter (fun s => s.OrgID == org && s.AlertRuleUID == uid)
    ∧ (ResetStateByRuleUID org uid del1 c).cache =
      c.filter (fun s => !(s.OrgID == org && s.AlertRuleUID == uid))
    ∧ (ResetStateByRuleUID org uid del1 c).states =
      (ResetStateByRuleUID org uid del2 c).states
    ∧ (ResetStateByRuleUID org uid del1 c).cache =
      (ResetStateByRuleUID org uid del2 c).cache :=
  ⟨rfl, rfl, rfl, rfl⟩

/-! Warm rehydration. -/

/-- A rule used by the Warm scenario. -/
def ruleC4 : AlertRule :=
  { ID := 2, OrgID := 1, UID := "r4", Title := "w", Condition := "B",
    IntervalSeconds := 10, Labels := [], RuleAnnotations := [],
    ResultsRetention := 10 }

/-- One persisted Firing instance of `ruleC4`. -/
def instC4 : AlertInstance :=
  { RuleUID := "r4", RuleOrgID := 1, Labels := [("x", "1")],
    CurrentState := InstanceStateType.Firing, CurrentReason := "",
    CurrentStateSince := 0, CurrentStateEnd := 0, LastEvalTime := 0 }

/-- Claim C4: Warm translates each persisted instance's stored state by the
fixed mapping Firing to Alerting, Normal to Normal, anything else to Error;
and warming with one persisted Firing instance whose rule exists yields one
cache entry with AlertState Alerting. -/
theorem warm_translates_stored_states :
    (∀ st : InstanceStateType,
      translateInstanceState st =
        (if st = InstanceStateType.Firing then EvalState.Alerting
         else if st = InstanceStateType.Normal then EvalState.Normal
         else EvalState.Error))
    ∧ (Warm [1] (fun _ => [ruleC4]) (fun _ => [instC4])).length = 1
    ∧ (Warm [1] (fun _ => [ruleC4]) (fun _ => [instC4])).all
        (fun s => s.State == EvalState.Alerting) = true := by
  refine ⟨?_, by decide, by decide⟩
  intro st
  cases st <;> rfl

/-- Every element of a cache produced by repeatedly storing states is either
from the initial cache or one of the stored states. -/
theorem mem_foldl_cacheSet (s : State) :
    ∀ (l c : List State), s ∈ l.foldl cacheSet c → s ∈ c ∨ s ∈ l := by
  intro l
  induction l with
  | nil => intro c h; exact Or.inl h
  | cons x rest ih =>
    intro c h
    rcases ih (cacheSet c x) h with hc | hr
    · simp only [cacheSet, deleteEntry] at hc
      rcases List.mem_append.mp hc with hd | hx
      · exact Or.inl (List.mem_of_mem_filter hd)
      · simp only [List.mem_singleton] at hx
        subst hx
        exact Or.inr (List.mem_cons_self _ _)
    · exact Or.inr (List.mem_cons_of_mem _ hr)

/-- Every state reconstructed for an org during Warm carries the UID of a
rule known to that org. -/
theorem warmStatesForOrg_rule_known {rules : List AlertRule}
    {entries : List AlertInstance} {s : State}
    (h : s ∈ warmStatesForOrg rules entries) :
    rules.any (fun r => r.UID == s.AlertRuleUID) = true := by
  simp only [warmStatesForOrg, List.mem_filterMap] at h
  obtain ⟨e, _, hmatch⟩ := h
  cases hf : rules.find? (fun r => r.UID == e.RuleUID) with
  | none => rw [hf] at hmatch; cases hmatch
  | some r =>
    rw [hf] at hmatch
    obtain rfl : stateForEntry r e = s := by simpa using hmatch
    have hr := List.mem_of_find?_eq_some hf
    have hp0 := List.find?_some hf
    have hp : (r.UID == e.RuleUID) = true := by simpa using hp0
    rw [List.any_eq_true]
    exact ⟨r, hr, by simpa [stateForEntry] using hp⟩

/-- Claim C10: during Warm, a persisted instance whose RuleUID matches no rule
of its org is skipped entirely, so the cache after Warm contains entries only
for instances whose rule still exists. -/
theorem warm_skips_unknown_rules :
    (∀ (orgIds : List Int) (rules : Int → List AlertRule)
        (instances : Int → List AlertInstance),
      (Warm orgIds rules instances).all
        (fun s => orgIds.any (fun o =>
          (rules o).any (fun r => r.UID == s.AlertRuleUID))) = true)
    ∧ (∀ (rules : List AlertRule) (e : AlertInstance),
        rules.find? (fun r => r.UID == e.RuleUID) = none →
        warmStatesForOrg rules [e] = []) := by
  constructor
  · intro orgIds rules instances
    rw [List.all_eq_true]
    intro s hs
    simp only [Warm] at hs
    rcases mem_foldl_cacheSet s _ [] hs with h0 | hst
    · cases h0
    · obtain ⟨l, hl, hsl⟩ := List.mem_flatten.mp hst
      obtain ⟨o, ho, rfl⟩ := List.mem_map.mp hl
      have hk := warmStatesForOrg_rule_known hsl
      simp only [List.any_eq_true]
      exact ⟨o, ho, by simpa using hk⟩
  · intro rules e h
    simp [warmStatesForOrg, h]

/-- Witness for C10 at a concrete input: with no rules at all, the single
persisted instance is skipped and Warm reconstructs nothing for the org. -/
theorem warm_skips_unknown_rules_witness :
    List.find? (fun r => r.UID == instC4.RuleUID) ([] : List AlertRule) = none
    ∧ warmStatesForOrg [] [instC4] = [] :=
  ⟨rfl, warm_skips_unknown_rules.2 [] instC4 rfl⟩

/-! Staleness sweep lemmas. -/

/-- The predicate satisfied by every force-resolved stale instance. -/
def resolvedProps (s : State) : Bool :=
  s.Resolved && (s.StateReason == StateReasonMissingSeries)
    && (s.State == EvalState.Normal)

theorem staleStep_deleted (r : AlertRule) (p : List String) (t : Time)
    (o : Nat → Option Image) (s : State) (acc : SweepAcc) :
    (staleStep r p t o s acc).deleted =
      acc.deleted ++ (if staleCond p t r.IntervalSeconds s then [s] else []) := by
  unfold staleStep
  split
  · split
    · split <;> simp_all
    · simp_all
  · simp_all

theorem staleStep_deleteCmds (r : AlertRule) (p : List String) (t : Time)
    (o : Nat → Option Image) (s : State) (acc : SweepAcc) :
    (staleStep r p t o s acc).deleteCmds =
      acc.deleteCmds ++ (if staleCond p t r.IntervalSeconds s then
        [(s.OrgID, s.AlertRuleUID, stringKey s.Labels)] else []) := by
  unfold staleStep
  split
  · split
    · split <;> simp_all
    · simp_all
  · simp_all

theorem staleStep_resolved_map (r : AlertRule) (p : List String) (t : Time)
    (o : Nat → Option Image) (s : State) (acc : SweepAcc) :
    ((staleStep r p t o s acc).resolved).map (fun x => x.CacheID) =
      acc.resolved.map (fun x => x.CacheID) ++
        (if staleCond p t r.IntervalSeconds s && (s.State == EvalState.Alerting)
         then [s.CacheID] else []) := by
  unfold staleStep
  split
  · split
    · split <;> simp_all [Resolve]
    · simp_all
  · simp_all

theorem staleStep_resolved_all (r : AlertRule) (p : List String) (t : Time)
    (o : Nat → Option Image) (s : State) (acc : SweepAcc)
    (h : acc.resolved.all resolvedProps = true) :
    ((staleStep r p t o s acc).resolved).all resolvedProps = true := by
  unfold staleStep
  split
  · split
    · split <;> simp_all [Resolve, resolvedProps]
    · simp_all
  · simp_all

/-- Absence invariant: every state recorded as deleted is no longer found in
the cache. -/
def absentAll (acc : SweepAcc) : Prop :=
  ∀ d ∈ acc.deleted, cacheGet acc.cache d.OrgID d.AlertRuleUID d.CacheID = none

theorem cacheGet_deleteEntry_self (c : List State) (org : Int) (uid cid : String) :
    cacheGet (deleteEntry c org uid cid) org uid cid = none := by
  rw [cacheGet, List.find?_eq_none]
  intro x hx
  have hm := List.of_mem_filter hx
  simp only [Bool.not_eq_true'] at hm
  simp [hm]

theorem cacheGet_none_of_deleteEntry {c : List State} {org : Int} {uid cid : String}
    (o2 : Int) (u2 c2 : String)
    (h : cacheGet c org uid cid = none) :
    cacheGet (deleteEntry c o2 u2 c2) org uid cid = none := by
  rw [cacheGet, List.find?_eq_none] at h ⊢
  intro x hx
  exact h x (List.mem_of_mem_filter hx)

theorem absent_extend {c : List State} {dl : List State} {s : State}
    (h : ∀ d ∈ dl, cacheGet c d.OrgID d.AlertRuleUID d.CacheID = none) :
    ∀ d ∈ dl ++ [s],
      cacheGet (deleteEntry c s.OrgID s.AlertRuleUID s.CacheID)
        d.OrgID d.AlertRuleUID d.CacheID = none := by
  intro d hd
  rcases List.mem_append.mp hd with hd | hd
  · exact cacheGet_none_of_deleteEntry _ _ _ (h d hd)
  · simp only [List.mem_singleton] at hd
    subst hd
    exact cacheGet_deleteEntry_self _ _ _ _

theorem staleStep_absent (r : AlertRule) (p : List String) (t : Time)
    (o : Nat → Option Image) (s : State) (acc : SweepAcc)
    (h : absentAll acc) : absentAll (staleStep r p t o s acc) := by
  unfold staleStep
  split
  · split
    · split
      · exact absent_extend h
      · exact absent_extend h
    · exact absent_extend h
  · exact h

theorem sweepLoop_deleted (r : AlertRule) (p : List String) (t : Time)
    (o : Nat → Option Image) :
    ∀ (l : List State) (acc : SweepAcc),
      (sweepLoop r p t o l acc).deleted =
        acc.deleted ++ l.filter (staleCond p t r.IntervalSeconds) := by
  intro l
  induction l with
  | nil => intro acc; simp [sweepLoop]
  | cons s rest ih =>
    intro acc
    rw [sweepLoop, ih, staleStep_deleted]
    by_cases hc : staleCond p t r.IntervalSeconds s = true <;>
      simp [hc, List.filter_cons]

theorem sweepLoop_deleteCmds (r : AlertRule) (p : List String) (t : Time)
    (o : Nat → Option Image) :
    ∀ (l : List State) (acc : SweepAcc),
      (sweepLoop r p t o l acc).deleteCmds =
        acc.deleteCmds ++ (l.filter (staleCond p t r.IntervalSeconds)).map
          (fun s => (s.OrgID, s.AlertRuleUID, stringKey s.Labels)) := by
  intro l
  induction l with
  | nil => intro acc; simp [sweepLoop]
  | cons s rest ih =>
    intro acc
    rw [sweepLoop, ih, staleStep_deleteCmds]
    by_cases hc : staleCond p t r.IntervalSeconds s = true <;>
      simp [hc, List.filter_cons]

theorem sweepLoop_resolved_map (r : AlertRule) (p : List String) (t : Time)
    (o : Nat → Option Image) :
    ∀ (l : List State) (acc : SweepAcc),
      ((sweepLoop r p t o l acc).resolved).map (fun x => x.CacheID) =
        acc.resolved.map (fun x => x.CacheID) ++
          (l.filter (fun s => staleCond p t r.IntervalSeconds s &&
            (s.State == EvalState.Alerting))).map (fun x => x.CacheID) := by
  intro l
  induction l with
  | nil => intro acc; simp [sweepLoop]
  | cons s rest ih =>
    intro acc
    rw [sweepLoop, ih, staleStep_resolved_map]
    by_cases hc : (staleCond p t r.IntervalSeconds s &&
        (s.State == EvalState.Alerting)) = true <;>
      simp [hc, List.filter_cons]

theorem sweepLoop_resolved_all (r : AlertRule) (p : List String) (t : Time)
    (o : Nat → Option Image) :
    ∀ (l : List State) (acc : SweepAcc),
      acc.resolved.all resolvedProps = true →
      ((sweepLoop r p t o l acc).resolved).all resolvedProps = true := by
  intro l
  induction l with
  | nil => intro acc h; simpa [sweepLoop] using h
  | cons s rest ih =>
    intro acc h
    rw [sweepLoop]
    exact ih _ (staleStep_resolved_all r p t o s acc h)

theorem sweepLoop_absent (r : AlertRule) (p : List String) (t : Time)
    (o : Nat → Option Image) :
    ∀ (l : List State) (acc : SweepAcc),
      absentAll acc → absentAll (sweepLoop r p t o l acc) := by
  intro l
  induction l with
  | nil => intro acc h; simpa [sweepLoop] using h
  | cons s rest ih =>
    intro acc h
    rw [sweepLoop]
    exact ih _ (staleStep_absent r p t o s acc h)

/-- Claim C1: in a staleness sweep at time evaluatedAt, a cached instance of
the rule absent from the current batch is deleted from the cache, with a
durable delete attempted, exactly when its LastEvaluationTime plus twice the
rule interval in seconds is not after evaluatedAt; and among the deleted
instances, exactly those whose state was Alerting appear, each exactly once,
in the resolved set, force-resolved with state reason "missing series". -/
theorem staleness_sweep_law (r : AlertRule) (processed : List String)
    (evaluatedAt : Time) (oracle : Nat → Option Image) (c : List State) :
    (staleResultsHandler r processed evaluatedAt oracle c).deleted =
      (getStatesForRuleUID c r.OrgID r.UID).filter
        (staleCond processed evaluatedAt r.IntervalSeconds)
    ∧ (∀ t last i : Int, isItStale t last i =
        decide (last + 2 * i * secondNs ≤ t))
    ∧ (staleResultsHandler r processed evaluatedAt oracle c).deleteCmds =
      ((staleResultsHandler r processed evaluatedAt oracle c).deleted).map
        (fun s => (s.OrgID, s.AlertRuleUID, stringKey s.Labels))
    ∧ ((staleResultsHandler r processed evaluatedAt oracle c).deleted).all
        (fun s => (cacheGet (staleResultsHandler r processed evaluatedAt oracle c).cache
          s.OrgID s.AlertRuleUID s.CacheID).isNone) = true
    ∧ ((staleResultsHandler r processed evaluatedAt oracle c).resolved).map
        (fun s => s.CacheID) =
      (((staleResultsHandler r processed evaluatedAt oracle c).deleted).filter
        (fun s => s.State == EvalState.Alerting)).map (fun s => s.CacheID)
    ∧ ((staleResultsHandler r processed evaluatedAt oracle c).resolved).all
        (fun s => s.Resolved && (s.StateReason == StateReasonMissingSeries)
          && (s.State == EvalState.Normal)) = true := by
  refine ⟨?_, ?_, ?_, ?_, ?_, ?_⟩
  · rw [staleResultsHandler, sweepLoop_deleted]
    simp
  · intro t last i
    simp only [isItStale, ← decide_not, decide_eq_decide, Int.not_lt]
  · rw [staleResultsHandler, sweepLoop_deleted, sweepLoop_deleteCmds]
    simp
  · have habs := sweepLoop_absent r processed evaluatedAt oracle
      (getStatesForRuleUID c r.OrgID r.UID)
      { cache := c, resolvedImage := none, resolved := [], deleted := [],
        deleteCmds := [], anns := 0, imgCalls := 0 }
      (by intro d hd; cases hd)
    rw [staleResultsHandler, List.all_eq_true]
    intro s hs
    have := habs s hs
    simp [Option.isNone_iff_eq_none, this]
  · rw [staleResultsHandler, sweepLoop_resolved_map, sweepLoop_deleted]
    simp [List.filter_filter, Bool.and_comm]
  · exact sweepLoop_resolved_all r processed evaluatedAt oracle _ _ rfl

/-! Image requests of the staleness sweep. -/

/-- A rule used by the image-request scenarios. -/
def ruleC7 : AlertRule :=
  { ID := 3, OrgID := 1, UID := "r7", Title := "i", Condition := "C",
    IntervalSeconds := 10, Labels := [], RuleAnnotations := [],
    ResultsRetention := 10 }

/-- A stale Alerting instance of `ruleC7`, one per cache id. -/
def staleC7 (cid : String) : State :=
  { OrgID := 1, AlertRuleUID := "r7", CacheID := cid, Labels := [("l", cid)],
    State := EvalState.Alerting, StateReason := "", Results := [],
    StartsAt := 0, EndsAt := 0, LastEvaluationString := "",
    LastEvaluationTime := 0, EvaluationDuration := 0, RuleAnnotations := [],
    Resolved := false, Image := none }

/-- Counterexample to claim C7 as stated: when every image request fails, a
sweep over two stale Alerting instances asks the image service twice, not at
most once. -/
theorem image_request_counterexample :
    ¬((staleResultsHandler ruleC7 [] (100 * secondNs) (fun _ => none)
        [staleC7 "a", staleC7 "b"]).imgCalls ≤ 1) := by
  decide

theorem staleStep_imgCalls_le (r : AlertRule) (p : List String) (t : Time)
    (o : Nat → Option Image) (s : State) (acc : SweepAcc) :
    (staleStep r p t o s acc).imgCalls ≤
      acc.imgCalls + (if staleCond p t r.IntervalSeconds s &&
        (s.State == EvalState.Alerting) then 1 else 0) := by
  unfold staleStep
  split
  · split
    · split <;> simp_all
    · simp_all
  · simp_all

theorem sweepLoop_imgCalls_le (r : AlertRule) (p : List String) (t : Time)
    (o : Nat → Option Image) :
    ∀ (l : List State) (acc : SweepAcc),
      (sweepLoop r p t o l acc).imgCalls ≤
        acc.imgCalls + (l.filter (fun s => staleCond p t r.IntervalSeconds s &&
          (s.State == EvalState.Alerting))).length := by
  intro l
  induction l with
  | nil => intro acc; simp [sweepLoop]
  | cons s rest ih =>
    intro acc
    rw [sweepLoop]
    refine Nat.le_trans (ih _) ?_
    have hs := staleStep_imgCalls_le r p t o s acc
    by_cases hc : (staleCond p t r.IntervalSeconds s &&
        (s.State == EvalState.Alerting)) = true <;>
      simp only [hc, if_pos, if_neg, List.filter_cons] at hs ⊢ <;>
      simp_all <;> omega

/-- Invariant of the sweep when the first image request succeeds with `img`:
either no request has been made yet and nothing was resolved, or exactly one
request was made, its image is cached, and every resolved state carries it. -/
def ImgInv (img : Image) (acc : SweepAcc) : Prop :=
  (acc.resolvedImage = some img ∧ acc.imgCalls = 1 ∧
    acc.resolved.all (fun s => s.Image == some img) = true)
  ∨ (acc.resolvedImage = none ∧ acc.imgCalls = 0 ∧ acc.resolved = [])

theorem staleStep_imginv (r : AlertRule) (p : List String) (t : Time)
    (oracle : Nat → Option Image) (s : State) (acc : SweepAcc) (img : Image)
    (h0 : oracle 0 = some img) (h : ImgInv img acc) :
    ImgInv img (staleStep r p t oracle s acc) := by
  unfold staleStep
  split
  · split
    · rcases h with ⟨h1, h2, h3⟩ | ⟨h1, h2, h3⟩
      · rw [ImgInv]
        simp only [h1]
        refine Or.inl ⟨by simp, by simp [h2], ?_⟩
        simp [h3]
      · rw [ImgInv]
        simp only [h1, h2, h0]
        refine Or.inl ⟨by simp, by simp, ?_⟩
        simp [h3, h2, h0]
    · exact h
  · exact h

theorem sweepLoop_imginv (r : AlertRule) (p : List String) (t : Time)
    (oracle : Nat → Option Image) (img : Image) (h0 : oracle 0 = some img) :
    ∀ (l : List State) (acc : SweepAcc),
      ImgInv img acc → ImgInv img (sweepLoop r p t oracle l acc) := by
  intro l
  induction l with
  | nil => intro acc h; simpa [sweepLoop] using h
  | cons s rest ih =>
    intro acc h
    rw [sweepLoop]
    exact ih _ (staleStep_imginv r p t oracle s acc img h0 h)

/-- Invariant of the sweep for an arbitrary image oracle: while no image has
been captured, every request made so far has failed; once an image has been
captured, it came from a successful request k, all requests before k failed,
and exactly k + 1 requests were made. -/
def FirstSuccess (oracle : Nat → Option Image) (acc : SweepAcc) : Prop :=
  (acc.resolvedImage = none ∧ ∀ m, m < acc.imgCalls → oracle m = none)
  ∨ (∃ j k, acc.resolvedImage = some j ∧ acc.imgCalls = k + 1 ∧
      oracle k = some j ∧ ∀ m, m < k → oracle m = none)

theorem staleStep_firstSuccess (r : AlertRule) (p : List String) (t : Time)
    (oracle : Nat → Option Image) (s : State) (acc : SweepAcc)
    (h : FirstSuccess oracle acc) :
    FirstSuccess oracle (staleStep r p t oracle s acc) := by
  unfold staleStep
  split
  · split
    · rcases h with ⟨h1, h2⟩ | ⟨j, k, h1, h2, h3, h4⟩
      · rw [FirstSuccess]
        simp only [h1]
        cases hres : oracle acc.imgCalls with
        | none =>
          left
          refine ⟨by simp, ?_⟩
          intro m hm
          rcases Nat.lt_succ_iff_lt_or_eq.mp hm with hm' | hm'
          · exact h2 m hm'
          · rw [hm']
            exact hres
        | some j =>
          right
          exact ⟨j, acc.imgCalls, by simp, rfl, hres, h2⟩
      · rw [FirstSuccess]
        simp only [h1]
        right
        exact ⟨j, k, rfl, h2, h3, h4⟩
    · exact h
  · exact h

theorem sweepLoop_firstSuccess (r : AlertRule) (p : List String) (t : Time)
    (oracle : Nat → Option Image) :
    ∀ (l : List State) (acc : SweepAcc),
      FirstSuccess oracle acc → FirstSuccess oracle (sweepLoop r p t oracle l acc) := by
  intro l
  induction l with
  | nil => intro acc h; simpa [sweepLoop] using h
  | cons s rest ih =>
    intro acc h
    rw [sweepLoop]
    exact ih _ (staleStep_firstSuccess r p t oracle s acc h)

/-- Amended claim C7: in one stale-results sweep the image service is asked at
most once per stale Alerting instance; after any request succeeds it is never
asked again in that sweep (a success at the n-th request caps the sweep at
n + 1 requests, also when earlier requests failed); and when the first
request succeeds, the service is asked at most once and every stale Alerting
instance resolved in that sweep is assigned that same image. -/
theorem image_requests_bounded_and_shared (r : AlertRule) (processed : List String)
    (evaluatedAt : Time) (oracle : Nat → Option Image) (c : List State) :
    ((staleResultsHandler r processed evaluatedAt oracle c).imgCalls ≤
      ((getStatesForRuleUID c r.OrgID r.UID).filter
        (fun s => staleCond processed evaluatedAt r.IntervalSeconds s &&
          (s.State == EvalState.Alerting))).length)
    ∧ (∀ (n : Nat) (img : Image), oracle n = some img →
        (staleResultsHandler r processed evaluatedAt oracle c).imgCalls ≤ n + 1)
    ∧ (∀ img : Image, oracle 0 = some img →
        (staleResultsHandler r processed evaluatedAt oracle c).imgCalls ≤ 1
        ∧ ((staleResultsHandler r processed evaluatedAt oracle c).resolved).all
            (fun s => s.Image == some img) = true) := by
  have hJ : FirstSuccess oracle (staleResultsHandler r processed evaluatedAt oracle c) := by
    rw [staleResultsHandler]
    refine sweepLoop_firstSuccess r processed evaluatedAt oracle _ _ (Or.inl ⟨rfl, ?_⟩)
    intro m hm
    exact absurd hm (Nat.not_lt_zero m)
  refine ⟨?_, ?_, ?_⟩
  · have hle := sweepLoop_imgCalls_le r processed evaluatedAt oracle
      (getStatesForRuleUID c r.OrgID r.UID)
      { cache := c, resolvedImage := none, resolved := [], deleted := [],
        deleteCmds := [], anns := 0, imgCalls := 0 }
    rw [staleResultsHandler]
    simpa using hle
  · intro n img hsome
    rcases hJ with ⟨_, h2⟩ | ⟨j, k, _, h2, _, h4⟩
    · by_cases hlt : n < (staleResultsHandler r processed evaluatedAt oracle c).imgCalls
      · rw [h2 n hlt] at hsome
        cases hsome
      · omega
    · rw [h2]
      by_cases hnk : n < k
      · rw [h4 n hnk] at hsome
        cases hsome
      · omega
  · intro img h0
    have hinv : ImgInv img (staleResultsHandler r processed evaluatedAt oracle c) := by
      rw [staleResultsHandler]
      exact sweepLoop_imginv r processed evaluatedAt oracle img h0 _ _
        (Or.inr ⟨rfl, rfl, rfl⟩)
    refine ⟨?_, ?_⟩
    · rcases hinv with ⟨_, h2, _⟩ | ⟨_, h2, _⟩ <;> omega
    · rcases hinv with ⟨_, _, h3⟩ | ⟨_, _, h3⟩
      · exact h3
      · rw [h3]
        rfl

/-- The image oracle of the success scenario: every request succeeds with the
same image. -/
def oracleC7 : Nat → Option Image := fun _ => some { token := 7 }

/-- Witness for the amended claim C7 at a concrete input: two stale Alerting
instances and a succeeding image service, discharging the success hypotheses
of both conditional conjuncts at request 0. -/
theorem image_requests_bounded_and_shared_witness :
    ((staleResultsHandler ruleC7 [] (100 * secondNs) oracleC7
        [staleC7 "a", staleC7 "b"]).imgCalls ≤
      ((getStatesForRuleUID [staleC7 "a", staleC7 "b"] ruleC7.OrgID ruleC7.UID).filter
        (fun s => staleCond [] (100 * secondNs) ruleC7.IntervalSeconds s &&
          (s.State == EvalState.Alerting))).length)
    ∧ ((staleResultsHandler ruleC7 [] (100 * secondNs) oracleC7
        [staleC7 "a", staleC7 "b"]).imgCalls ≤ 0 + 1)
    ∧ ((staleResultsHandler ruleC7 [] (100 * secondNs) oracleC7
        [staleC7 "a", staleC7 "b"]).imgCalls ≤ 1
      ∧ ((staleResultsHandler ruleC7 [] (100 * secondNs) oracleC7
          [staleC7 "a", staleC7 "b"]).resolved).all
          (fun s => s.Image == some { token := 7 }) = true) :=
  ⟨(image_requests_bounded_and_shared ruleC7 [] (100 * secondNs) oracleC7
      [staleC7 "a", staleC7 "b"]).1,
   (image_requests_bounded_and_shared ruleC7 [] (100 * secondNs) oracleC7
      [staleC7 "a", staleC7 "b"]).2.1 0 { token := 7 } rfl,
   (image_requests_bounded_and_shared ruleC7 [] (100 * secondNs) oracleC7
      [staleC7 "a", staleC7 "b"]).2.2 { token := 7 } rfl⟩

end AlertState
